import Mathlib

/-!
Shallow embedding of the video-detection-labeler repository, for checking its
natural-language specification against the code.

Sources embedded here:
* `src/database.py` — the Annotation Store (SQLite): `get_or_create_video`,
  `save_rectangle`, together with the UNIQUE constraints of the schema.
* `src/video_model.py` — the Stream Navigator (`VideoModel`): `seek`,
  `get_frame_by_index`, `reset_to_start`, `add_rectangle`, and the in-memory
  rectangle cache.
* `src/video_controller.py` — the Dataset Exporter (`_export_dataset`):
  the train/validation split and the YOLO label-line computation.

Conventions: Python ints are `Int` (or `Nat` where the value is an index into
the decoded stream), SQLite REAL and Python float arithmetic on box
coordinates are modelled over `ℚ` (all quantities the claims touch are exact
in binary floating point, so the rational model agrees with the float run),
dynamic Python values passed to the Store are a `PyVal` sum type, and the
side effects of each method are made explicit by returning the new state.
-/

/-! ## Annotation Store (`src/database.py`) -/

/-- A dynamically typed Python value arriving at a `Database` method.
`coerceInt` below models Python's `int(...)` applied to it. -/
inductive PyVal where
  | vInt (n : Int)
  | vFloat (q : ℚ)
  | vStr (s : String)
  | vNone
deriving DecidableEq

/-- One decimal digit of a Python integer literal. -/
def pyDigit? (c : Char) : Option Nat :=
  let n := c.toNat
  if 48 ≤ n ∧ n ≤ 57 then some (n - 48) else none

/-- Accumulate decimal digits; any non-digit character fails. -/
def pyDigitsAux : List Char → Nat → Option Nat
  | [], acc => some acc
  | c :: cs, acc =>
      match pyDigit? c with
      | some d => pyDigitsAux cs (acc * 10 + d)
      | none => none

/-- Model of Python `int(s)` on a string: an optional sign followed by at
least one decimal digit; anything else raises `ValueError`, i.e. `none`.
(CPython also strips whitespace and allows underscore separators; no claim
exercises those inputs.) -/
def pyIntOfString (s : String) : Option Int :=
  match s.toList with
  | [] => none
  | '-' :: cs =>
      if cs = [] then none
      else (pyDigitsAux cs 0).map (fun n => -(n : Int))
  | '+' :: cs =>
      if cs = [] then none
      else (pyDigitsAux cs 0).map (fun n => (n : Int))
  | cs => (pyDigitsAux cs 0).map (fun n => (n : Int))

/-- Python `int(v)`: identity on ints, truncation toward zero on floats,
decimal parse on strings (`ValueError` on a non-numeric string), and
`TypeError` on `None`.  Failure is `none`. -/
def coerceInt : PyVal → Option Int
  | PyVal.vInt n => some n
  | PyVal.vFloat q => some (Int.tdiv q.num (q.den : Int))
  | PyVal.vStr s => pyIntOfString s
  | PyVal.vNone => none

/-- A row of the `videos` table.  `created_at` is omitted: no claim observes
it.  `id` is the AUTOINCREMENT primary key. -/
structure VideoRow where
  id : Int
  projectId : Int
  name : String
  fps : ℚ
  frameCount : Int
deriving DecidableEq

/-- The `videos` table: rows in insertion order plus the next AUTOINCREMENT
id (SQLite's `lastrowid` for the next insert). -/
structure VideoStore where
  rows : List VideoRow
  nextId : Int
deriving DecidableEq

/-- The `WHERE project_id = ? AND name = ?` filter of `get_or_create_video`. -/
def videoMatches (pid : Int) (nm : String) (r : VideoRow) : Bool :=
  r.projectId == pid && r.name == nm

/-- Model of `Database.get_or_create_video` (src/database.py:151-182): coerced inputs,
`SELECT id FROM videos WHERE project_id = ? AND name = ?`; if a row is found
its id is returned and nothing is written, otherwise a new row is inserted
with the supplied fps/frame_count and its fresh id returned.  The returned
value is `Option Int` because the Python function returns `None` on a
database error; no database error arises in the model. -/
def getOrCreateVideo (s : VideoStore) (pid : Int) (nm : String) (fps : ℚ)
    (fc : Int) : Option Int × VideoStore :=
  match s.rows.find? (fun r => videoMatches pid nm r) with
  | some r => (some r.id, s)
  | none =>
      (some s.nextId,
       { rows := s.rows ++
           [{ id := s.nextId, projectId := pid, name := nm, fps := fps,
              frameCount := fc }],
         nextId := s.nextId + 1 })

/-- Number of `videos` rows matching a (project_id, name) key. -/
def countVideoRows (s : VideoStore) (pid : Int) (nm : String) : Nat :=
  (s.rows.filter (fun r => videoMatches pid nm r)).length

/-- A row of the `rectangles` table.  The UNIQUE constraint of the schema is
on the full tuple `(video_id, frame_index, class_id, x1, y1, x2, y2)`, i.e.
on everything modelled here; `id` and `created_at` are omitted, no claim
observes them. -/
structure RectRow where
  videoId : Int
  frameIndex : Int
  classId : Int
  x1 : Int
  y1 : Int
  x2 : Int
  y2 : Int
deriving DecidableEq

/-- The `rectangles` table, rows in insertion order. -/
structure RectStore where
  rows : List RectRow
deriving DecidableEq

/-- Observable outcome of `Database.save_rectangle`: the returned boolean,
the message printed on a failure path (success prints nothing inside the
method), and the table afterwards. -/
structure SaveResult where
  ret : Bool
  log : Option String
  store : RectStore
deriving DecidableEq

/-- Model of `Database.save_rectangle` (src/database.py:198-229): coerce all seven
arguments with `int(...)` — a `ValueError`/`TypeError` is caught and turns
into `return False` with a "Data type error" message and no write; then
`INSERT`, where a violation of the UNIQUE constraint (an identical row
already present) is caught as `sqlite3.IntegrityError` and turns into
`return False` with a "Rectangle already exists" message and no write.
The model is total: no exception reaches the caller, as in the source. -/
def saveRectangle (s : RectStore) (videoId frameIndex classId x1 y1 x2 y2 :
    PyVal) : SaveResult :=
  match coerceInt videoId, coerceInt frameIndex, coerceInt classId,
      coerceInt x1, coerceInt y1, coerceInt x2, coerceInt y2 with
  | some v, some f, some c, some a, some b, some p, some q =>
      let row : RectRow :=
        { videoId := v, frameIndex := f, classId := c,
          x1 := a, y1 := b, x2 := p, y2 := q }
      if row ∈ s.rows then
        { ret := false, log := some "Rectangle already exists", store := s }
      else
        { ret := true, log := none, store := { rows := s.rows ++ [row] } }
  | _, _, _, _, _, _, _ =>
      { ret := false, log := some "Data type error saving rectangle",
        store := s }

/-- Number of `rectangles` rows equal to a given tuple. -/
def countRectRows (s : RectStore) (row : RectRow) : Nat :=
  (s.rows.filter (fun r => r == row)).length

/-- C3: `get_or_create_video` is idempotent: for every project_id and name,
calling it twice — with possibly different fps and frame_count on the second
call — returns the same id both times; after the second call exactly one
`videos` row exists for that (project_id, name); the second call's
fps/frame_count are ignored and the store is unchanged by it.  The hypothesis
is the schema's `UNIQUE (project_id, name)` invariant on the initial store. -/
theorem getOrCreateVideo_idempotent (s : VideoStore) (pid : Int) (nm : String)
    (fps1 fps2 : ℚ) (fc1 fc2 : Int)
    (hinv : countVideoRows s pid nm ≤ 1)
    (r1 r2 : Option Int × VideoStore)
    (h1 : r1 = getOrCreateVideo s pid nm fps1 fc1)
    (h2 : r2 = getOrCreateVideo r1.2 pid nm fps2 fc2) :
    r2.1 = r1.1 ∧ r2.2 = r1.2 ∧ countVideoRows r2.2 pid nm = 1 := by
  subst h1 h2
  cases h : s.rows.find? (fun r => videoMatches pid nm r) with
  | some r =>
      have hm := List.mem_of_find?_eq_some h
      have hp := List.find?_some h
      have hmem : r ∈ s.rows.filter (fun r => videoMatches pid nm r) :=
        List.mem_filter.mpr ⟨hm, hp⟩
      have hpos : 0 < (s.rows.filter (fun r => videoMatches pid nm r)).length :=
        List.length_pos_of_mem hmem
      have e1 : getOrCreateVideo s pid nm fps1 fc1 = (some r.id, s) := by
        unfold getOrCreateVideo
        rw [h]
      have e2 : getOrCreateVideo s pid nm fps2 fc2 = (some r.id, s) := by
        unfold getOrCreateVideo
        rw [h]
      rw [e1]
      rw [e2]
      unfold countVideoRows at hinv ⊢
      exact ⟨rfl, rfl, Nat.le_antisymm hinv hpos⟩
  | none =>
      have hnil : s.rows.filter (fun r => videoMatches pid nm r) = [] :=
        List.filter_eq_nil_iff.mpr (by
          intro a ha
          have := List.find?_eq_none.mp h a ha
          simpa using this)
      simp only [getOrCreateVideo, h]
      simp only [List.find?_append, h, Option.none_or]
      simp only [List.find?, videoMatches, beq_self_eq_true, Bool.and_self]
      simp [countVideoRows, videoMatches, hnil]
      intro a ha hpid
      have hfa := List.find?_eq_none.mp h a ha
      simpa [videoMatches, hpid] using hfa

/-- Closed instance of `getOrCreateVideo_idempotent` on an empty store. -/
theorem getOrCreateVideo_idempotent_witness :
    (getOrCreateVideo
        (getOrCreateVideo { rows := [], nextId := 1 } 7 "clip.mp4" 30 100).2
        7 "clip.mp4" 25 50).1 =
      (getOrCreateVideo { rows := [], nextId := 1 } 7 "clip.mp4" 30 100).1 ∧
    (getOrCreateVideo
        (getOrCreateVideo { rows := [], nextId := 1 } 7 "clip.mp4" 30 100).2
        7 "clip.mp4" 25 50).2 =
      (getOrCreateVideo { rows := [], nextId := 1 } 7 "clip.mp4" 30 100).2 ∧
    countVideoRows
      (getOrCreateVideo
        (getOrCreateVideo { rows := [], nextId := 1 } 7 "clip.mp4" 30 100).2
        7 "clip.mp4" 25 50).2 7 "clip.mp4" = 1 :=
  getOrCreateVideo_idempotent { rows := [], nextId := 1 } 7 "clip.mp4"
    30 25 100 50 (by decide) _ _ rfl rfl

/-- C4: `save_rectangle` called twice with identical (integer) arguments on a
store not yet holding the tuple returns `True` the first time and `False` the
second, raises nothing into the caller (the model is total, as the source
catches every exception), leaves the store unchanged on the duplicate call,
and leaves exactly one matching row. -/
theorem saveRectangle_twice (s : RectStore) (v f c a b p q : Int)
    (row : RectRow)
    (hrow : row = RectRow.mk v f c a b p q)
    (habs : row ∉ s.rows)
    (r1 r2 : SaveResult)
    (h1 : r1 = saveRectangle s (PyVal.vInt v) (PyVal.vInt f) (PyVal.vInt c)
        (PyVal.vInt a) (PyVal.vInt b) (PyVal.vInt p) (PyVal.vInt q))
    (h2 : r2 = saveRectangle r1.store (PyVal.vInt v) (PyVal.vInt f)
        (PyVal.vInt c) (PyVal.vInt a) (PyVal.vInt b) (PyVal.vInt p)
        (PyVal.vInt q)) :
    r1.ret = true ∧ r2.ret = false ∧ r2.store = r1.store ∧
      countRectRows r2.store row = 1 := by
  subst h1 h2 hrow
  have hnil : s.rows.filter (fun r => r == RectRow.mk v f c a b p q) = [] :=
    List.filter_eq_nil_iff.mpr (by
      intro r hr hbeq
      exact habs (by rwa [eq_of_beq hbeq] at hr))
  simp [saveRectangle, coerceInt, habs, countRectRows, hnil]

/-- Closed instance of `saveRectangle_twice` on an empty store. -/
theorem saveRectangle_twice_witness :
    (saveRectangle { rows := [] } (PyVal.vInt 1) (PyVal.vInt 0)
      (PyVal.vInt 1) (PyVal.vInt 10) (PyVal.vInt 20) (PyVal.vInt 110)
      (PyVal.vInt 120)).ret = true ∧
    (saveRectangle (saveRectangle { rows := [] } (PyVal.vInt 1) (PyVal.vInt 0)
      (PyVal.vInt 1) (PyVal.vInt 10) (PyVal.vInt 20) (PyVal.vInt 110)
      (PyVal.vInt 120)).store (PyVal.vInt 1) (PyVal.vInt 0)
      (PyVal.vInt 1) (PyVal.vInt 10) (PyVal.vInt 20) (PyVal.vInt 110)
      (PyVal.vInt 120)).ret = false ∧
    (saveRectangle (saveRectangle { rows := [] } (PyVal.vInt 1) (PyVal.vInt 0)
      (PyVal.vInt 1) (PyVal.vInt 10) (PyVal.vInt 20) (PyVal.vInt 110)
      (PyVal.vInt 120)).store (PyVal.vInt 1) (PyVal.vInt 0)
      (PyVal.vInt 1) (PyVal.vInt 10) (PyVal.vInt 20) (PyVal.vInt 110)
      (PyVal.vInt 120)).store =
      (saveRectangle { rows := [] } (PyVal.vInt 1) (PyVal.vInt 0)
      (PyVal.vInt 1) (PyVal.vInt 10) (PyVal.vInt 20) (PyVal.vInt 110)
      (PyVal.vInt 120)).store ∧
    countRectRows (saveRectangle (saveRectangle { rows := [] } (PyVal.vInt 1)
      (PyVal.vInt 0) (PyVal.vInt 1) (PyVal.vInt 10) (PyVal.vInt 20)
      (PyVal.vInt 110) (PyVal.vInt 120)).store (PyVal.vInt 1) (PyVal.vInt 0)
      (PyVal.vInt 1) (PyVal.vInt 10) (PyVal.vInt 20) (PyVal.vInt 110)
      (PyVal.vInt 120)).store (RectRow.mk 1 0 1 10 20 110 120) = 1 :=
  saveRectangle_twice { rows := [] } 1 0 1 10 20 110 120 _ rfl (by decide)
    _ _ rfl rfl

/-- C9 counterexample: the caller of `save_rectangle` cannot tell a coercion
failure apart from the "already recorded" uniqueness outcome by the
operation's observable result — the returned value is `False` in both cases.
Here a duplicate insert of `(1,0,1,10,20,110,120)` and a call whose `x1` is
the non-numeric string `"abc"` produce identical return values. -/
theorem saveRectangle_coercion_return_indistinct :
    (saveRectangle { rows := [RectRow.mk 1 0 1 10 20 110 120] }
        (PyVal.vInt 1) (PyVal.vInt 0) (PyVal.vInt 1) (PyVal.vInt 10)
        (PyVal.vInt 20) (PyVal.vInt 110) (PyVal.vInt 120)).ret =
      (saveRectangle { rows := [] } (PyVal.vInt 1) (PyVal.vInt 0)
        (PyVal.vInt 1) (PyVal.vStr "abc") (PyVal.vInt 20) (PyVal.vInt 110)
        (PyVal.vInt 120)).ret ∧
    (saveRectangle { rows := [] } (PyVal.vInt 1) (PyVal.vInt 0)
        (PyVal.vInt 1) (PyVal.vStr "abc") (PyVal.vInt 20) (PyVal.vInt 110)
        (PyVal.vInt 120)).ret = false := by decide

/-- C9 (amended): a coercion failure makes `save_rectangle` abort with no
partial write and log a "Data type error" message distinct from the
uniqueness message, but its return value is `False` — the same value the
caller receives for a uniqueness violation, so the two outcomes are told
apart only in the log, not in the returned result. -/
theorem saveRectangle_coercion_aborts (s : RectStore)
    (videoId frameIndex classId x1 y1 x2 y2 : PyVal)
    (hbad : coerceInt videoId = none ∨ coerceInt frameIndex = none ∨
      coerceInt classId = none ∨ coerceInt x1 = none ∨ coerceInt y1 = none ∨
      coerceInt x2 = none ∨ coerceInt y2 = none) :
    (saveRectangle s videoId frameIndex classId x1 y1 x2 y2).ret = false ∧
    (saveRectangle s videoId frameIndex classId x1 y1 x2 y2).store = s ∧
    (saveRectangle s videoId frameIndex classId x1 y1 x2 y2).log =
      some "Data type error saving rectangle" ∧
    (saveRectangle s videoId frameIndex classId x1 y1 x2 y2).log ≠
      some "Rectangle already exists" := by
  cases h1 : coerceInt videoId <;> cases h2 : coerceInt frameIndex <;>
    cases h3 : coerceInt classId <;> cases h4 : coerceInt x1 <;>
    cases h5 : coerceInt y1 <;> cases h6 : coerceInt x2 <;>
    cases h7 : coerceInt y2 <;>
    simp_all [saveRectangle]

/-- Closed instance of `saveRectangle_coercion_aborts` at `x1 = "abc"`. -/
theorem saveRectangle_coercion_aborts_witness :
    (saveRectangle { rows := [] } (PyVal.vInt 1) (PyVal.vInt 0)
      (PyVal.vInt 1) (PyVal.vStr "abc") (PyVal.vInt 20) (PyVal.vInt 110)
      (PyVal.vInt 120)).ret = false ∧
    (saveRectangle { rows := [] } (PyVal.vInt 1) (PyVal.vInt 0)
      (PyVal.vInt 1) (PyVal.vStr "abc") (PyVal.vInt 20) (PyVal.vInt 110)
      (PyVal.vInt 120)).store = { rows := [] } ∧
    (saveRectangle { rows := [] } (PyVal.vInt 1) (PyVal.vInt 0)
      (PyVal.vInt 1) (PyVal.vStr "abc") (PyVal.vInt 20) (PyVal.vInt 110)
      (PyVal.vInt 120)).log = some "Data type error saving rectangle" ∧
    (saveRectangle { rows := [] } (PyVal.vInt 1) (PyVal.vInt 0)
      (PyVal.vInt 1) (PyVal.vStr "abc") (PyVal.vInt 20) (PyVal.vInt 110)
      (PyVal.vInt 120)).log ≠ some "Rectangle already exists" :=
  saveRectangle_coercion_aborts { rows := [] } (PyVal.vInt 1) (PyVal.vInt 0)
    (PyVal.vInt 1) (PyVal.vStr "abc") (PyVal.vInt 20) (PyVal.vInt 110)
    (PyVal.vInt 120) (by decide)

/-! ## Annotation Cache and `VideoModel.add_rectangle` (`src/video_model.py`) -/

/-- A cache entry `(class_id, x1, y1, x2, y2)` as stored in
`VideoModel.rectangles`. -/
abbrev RectTuple := Int × Int × Int × Int × Int

/-- The in-memory dictionary `VideoModel.rectangles`
(`frame_index -> list of (class_id, x1, y1, x2, y2)`), as an association
list in key-insertion order (Python dicts preserve insertion order). -/
abbrev RectCache := List (Int × List RectTuple)

/-- Dictionary lookup `self.rectangles.get(frame_index)`. -/
def cacheLookup (cache : RectCache) (k : Int) : Option (List RectTuple) :=
  (cache.find? (fun e => e.1 == k)).map (fun e => e.2)

/-- The slice of `VideoModel` state that `add_rectangle` touches:
the loaded video's id, `current_frame_index`, the in-memory cache, and the
database handle (its `rectangles` table). -/
structure VModel where
  videoId : Option Int
  currentFrameIndex : Int
  rectangles : RectCache
  db : RectStore

/-- Model of `VideoModel.add_rectangle` (src/video_model.py:168-215): bail out when no
video is loaded or no class is selected; otherwise append the tuple to the
in-memory list for the current frame (creating the list if absent), then call
`Database.save_rectangle`; whatever the save reports, the in-memory copy is
kept (the code only logs the failure). -/
def addRectangle (m : VModel) (classId : Option Int) (a b p q : Int) :
    VModel :=
  match m.videoId with
  | none => m
  | some vid =>
      match classId with
      | none => m
      | some c =>
          let t : RectTuple := (c, a, b, p, q)
          let cache2 :=
            match cacheLookup m.rectangles m.currentFrameIndex with
            | some _ =>
                m.rectangles.map (fun e =>
                  if e.1 == m.currentFrameIndex then (e.1, e.2 ++ [t]) else e)
            | none => m.rectangles ++ [(m.currentFrameIndex, [t])]
          let res := saveRectangle m.db (PyVal.vInt vid)
            (PyVal.vInt m.currentFrameIndex) (PyVal.vInt c) (PyVal.vInt a)
            (PyVal.vInt b) (PyVal.vInt p) (PyVal.vInt q)
          { m with rectangles := cache2, db := res.store }

/-- The cache's list for a frame, empty when the frame has no entry. -/
def cacheList (m : VModel) (k : Int) : List RectTuple :=
  (cacheLookup m.rectangles k).getD []

/-- Updating every binding whose key matches `k` (there is exactly one in a
Python dict) leaves the lookup pointing at the appended list. -/
theorem cacheLookup_map_append (cache : RectCache) (k : Int) (t : RectTuple)
    (l : List RectTuple) (h : cacheLookup cache k = some l) :
    cacheLookup (cache.map (fun e =>
      if e.1 == k then (e.1, e.2 ++ [t]) else e)) k = some (l ++ [t]) := by
  induction cache with
  | nil => simp [cacheLookup] at h
  | cons e tl ih =>
      cases hk : (e.1 == k) with
      | true =>
          simp [cacheLookup, List.find?, hk] at h ⊢
          rw [← h]
      | false =>
          have h2 : cacheLookup tl k = some l := by
            simpa [cacheLookup, List.find?, hk] using h
          have ih2 := ih h2
          simp [cacheLookup, List.find?, hk] at ih2 ⊢
          exact ih2

/-- C8: adding a rectangle whose exact tuple is already persisted still
appends to the in-memory cache: after `add_rectangle` the cache's list for
the current frame has grown by one and holds the tuple (a duplicate of the
persisted row), while the `rectangles` table is unchanged and still holds
exactly one matching row. -/
theorem addRectangle_cache_grows_on_duplicate (m : VModel)
    (vid c a b p q : Int)
    (hvid : m.videoId = some vid)
    (hdup : countRectRows m.db
      (RectRow.mk vid m.currentFrameIndex c a b p q) = 1)
    (m2 : VModel) (h2 : m2 = addRectangle m (some c) a b p q) :
    (cacheList m2 m.currentFrameIndex).length =
      (cacheList m m.currentFrameIndex).length + 1 ∧
    (c, a, b, p, q) ∈ cacheList m2 m.currentFrameIndex ∧
    m2.db = m.db ∧
    countRectRows m2.db (RectRow.mk vid m.currentFrameIndex c a b p q) = 1
    := by
  subst h2
  have hpos : 0 < (m.db.rows.filter
      (fun r => r == RectRow.mk vid m.currentFrameIndex c a b p q)).length
    := by
    unfold countRectRows at hdup
    omega
  obtain ⟨r, hr⟩ := List.exists_mem_of_length_pos hpos
  obtain ⟨hrm, hrb⟩ := List.mem_filter.mp hr
  have hmem : RectRow.mk vid m.currentFrameIndex c a b p q ∈ m.db.rows := by
    rwa [eq_of_beq hrb] at hrm
  have hdb : (saveRectangle m.db (PyVal.vInt vid)
      (PyVal.vInt m.currentFrameIndex) (PyVal.vInt c) (PyVal.vInt a)
      (PyVal.vInt b) (PyVal.vInt p) (PyVal.vInt q)).store = m.db := by
    simp [saveRectangle, coerceInt, hmem]
  cases hc : cacheLookup m.rectangles m.currentFrameIndex with
  | some l =>
      have hmap := cacheLookup_map_append m.rectangles m.currentFrameIndex
        (c, a, b, p, q) l hc
      refine ⟨?_, ?_, ?_, ?_⟩
      · simp only [cacheList, addRectangle, hvid, hc]
        rw [hmap]
        simp [hc]
      · simp only [cacheList, addRectangle, hvid, hc]
        rw [hmap]
        simp
      · simp only [addRectangle, hvid, hc]
        simpa using hdb
      · simp only [addRectangle, hvid, hc]
        simp only [hdb]
        exact hdup
  | none =>
      have hfind : m.rectangles.find?
          (fun e => e.1 == m.currentFrameIndex) = none := by
        unfold cacheLookup at hc
        cases hf : m.rectangles.find? (fun e => e.1 == m.currentFrameIndex)
        · rfl
        · rw [hf] at hc
          simp at hc
      refine ⟨?_, ?_, ?_, ?_⟩
      · simp [cacheList, addRectangle, hvid, hc, cacheLookup,
          List.find?_append, hfind, List.find?]
      · simp [cacheList, addRectangle, hvid, hc, cacheLookup,
          List.find?_append, hfind, List.find?]
      · simp [addRectangle, hvid, hc, hdb]
      · simp [addRectangle, hvid, hc, hdb, hdup]

/-- Closed instance of `addRectangle_cache_grows_on_duplicate`: the tuple
`(1,10,20,110,120)` on frame 0 is already both cached and persisted. -/
theorem addRectangle_cache_grows_on_duplicate_witness :
    (cacheList (addRectangle
        { videoId := some 1, currentFrameIndex := 0,
          rectangles := [(0, [(1, 10, 20, 110, 120)])],
          db := { rows := [RectRow.mk 1 0 1 10 20 110 120] } }
        (some 1) 10 20 110 120) 0).length =
      (cacheList
        { videoId := some 1, currentFrameIndex := 0,
          rectangles := [(0, [(1, 10, 20, 110, 120)])],
          db := { rows := [RectRow.mk 1 0 1 10 20 110 120] } } 0).length + 1 ∧
    ((1 : Int), (10 : Int), (20 : Int), (110 : Int), (120 : Int)) ∈
      cacheList (addRectangle
        { videoId := some 1, currentFrameIndex := 0,
          rectangles := [(0, [(1, 10, 20, 110, 120)])],
          db := { rows := [RectRow.mk 1 0 1 10 20 110 120] } }
        (some 1) 10 20 110 120) 0 ∧
    (addRectangle
        { videoId := some 1, currentFrameIndex := 0,
          rectangles := [(0, [(1, 10, 20, 110, 120)])],
          db := { rows := [RectRow.mk 1 0 1 10 20 110 120] } }
        (some 1) 10 20 110 120).db =
      ({ rows := [RectRow.mk 1 0 1 10 20 110 120] } : RectStore) ∧
    countRectRows (addRectangle
        { videoId := some 1, currentFrameIndex := 0,
          rectangles := [(0, [(1, 10, 20, 110, 120)])],
          db := { rows := [RectRow.mk 1 0 1 10 20 110 120] } }
        (some 1) 10 20 110 120).db (RectRow.mk 1 0 1 10 20 110 120) = 1 :=
  addRectangle_cache_grows_on_duplicate
    { videoId := some 1, currentFrameIndex := 0,
      rectangles := [(0, [(1, 10, 20, 110, 120)])],
      db := { rows := [RectRow.mk 1 0 1 10 20 110 120] } }
    1 1 10 20 110 120 rfl (by decide) _ rfl

/-! ## Dataset Exporter (`src/video_controller.py`, `_export_dataset`) -/

/-- The clamp `max(0.0, min(1.0, v))` of the export loop
(src/video_controller.py:482-485), with Python's `min`/`max` spelled out as
conditionals (`min(1.0, v)` is `1` when `1 ≤ v`, else `v`; `max(0.0, m)` is
`0` when `m ≤ 0`, else `m`). -/
def clamp01 (v : ℚ) : ℚ :=
  let m := if (1 : ℚ) ≤ v then (1 : ℚ) else v
  if m ≤ 0 then 0 else m

/-- The four clamped normalized box values of one rectangle
(src/video_controller.py:472-485): pixel width/height and center, each
divided by the image dimension and clamped to `[0,1]`.  Python does this in
binary floating point; every quantity the claims touch is a ratio of small
integers that the float run and this exact rational model agree on. -/
def normRect (x1 y1 x2 y2 imgW imgH : Int) : ℚ × ℚ × ℚ × ℚ :=
  let bw : ℚ := (x2 : ℚ) - (x1 : ℚ)
  let bh : ℚ := (y2 : ℚ) - (y1 : ℚ)
  let cx : ℚ := (x1 : ℚ) + bw / 2
  let cy : ℚ := (y1 : ℚ) + bh / 2
  (clamp01 (cx / (imgW : ℚ)), clamp01 (cy / (imgH : ℚ)),
   clamp01 (bw / (imgW : ℚ)), clamp01 (bh / (imgH : ℚ)))

/-- Python's `f"{v:.6f}"` for the clamped values: six digits after the
decimal point, rounding to nearest (`⌊v * 10^6 + 1/2⌋` computed on
`num`/`den`).  (CPython rounds the underlying double half-to-even; on every
value a claim exercises, `v * 10^6` is an integer, so no tie or
representation issue arises and the models agree.) -/
def format6 (q : ℚ) : String :=
  let r : ℚ := q * 1000000
  let m : Nat := (Int.ediv (2 * r.num + (r.den : Int)) (2 * (r.den : Int))).toNat
  let ip := m / 1000000
  let fr := m % 1000000
  let fs := toString fr
  let pad := String.mk (List.replicate (6 - fs.length) '0')
  toString ip ++ "." ++ pad ++ fs

/-- One YOLO label line (src/video_controller.py:487):
`f"{yolo_class_index} {cx:.6f} {cy:.6f} {w:.6f} {h:.6f}"`. -/
def yoloLine (yoloIndex : Nat) (x1 y1 x2 y2 imgW imgH : Int) : String :=
  let v := normRect x1 y1 x2 y2 imgW imgH
  toString yoloIndex ++ " " ++ format6 v.1 ++ " " ++ format6 v.2.1 ++ " " ++
    format6 v.2.2.1 ++ " " ++ format6 v.2.2.2

/-- The `class_id -> 0-based yolo index` map built from the project's
ordered class list (src/video_controller.py:363). -/
def classIdToYoloIndex (classes : List (Int × String)) (cid : Int) :
    Option Nat :=
  classes.findIdx? (fun e => e.1 == cid)

/-- C6: with a class list mapping the rectangle's class id to yolo index 0,
the stored rectangle `(x1=10, y1=20, x2=110, y2=120)` on a 200x200 frame
exports as exactly `"0 0.300000 0.350000 0.500000 0.500000"`. -/
theorem yoloLine_roundtrip :
    classIdToYoloIndex [(1, "object")] 1 = some 0 ∧
    yoloLine 0 10 20 110 120 200 200 =
      "0 0.300000 0.350000 0.500000 0.500000" := by
  constructor
  · decide
  · have hn : normRect 10 20 110 120 200 200 =
        (3 / 10, 7 / 20, 1 / 2, 1 / 2) := by
      unfold normRect clamp01
      norm_num
    have f1 : format6 ((3 : ℚ) / 10) = "0.300000" := by
      unfold format6
      rw [(by norm_num : ((3 : ℚ) / 10) * 1000000 = 300000)]
      simp only [Rat.num_ofNat, Rat.den_ofNat]
      decide
    have f2 : format6 ((7 : ℚ) / 20) = "0.350000" := by
      unfold format6
      rw [(by norm_num : ((7 : ℚ) / 20) * 1000000 = 350000)]
      simp only [Rat.num_ofNat, Rat.den_ofNat]
      decide
    have f3 : format6 ((1 : ℚ) / 2) = "0.500000" := by
      unfold format6
      rw [(by norm_num : ((1 : ℚ) / 2) * 1000000 = 500000)]
      simp only [Rat.num_ofNat, Rat.den_ofNat]
      decide
    unfold yoloLine
    rw [hn]
    simp only [f1, f2, f3]
    decide

/-- Values of `clamp01` really land in `[0,1]`. -/
theorem clamp01_mem (v : ℚ) : 0 ≤ clamp01 v ∧ clamp01 v ≤ 1 := by
  unfold clamp01
  dsimp only
  split_ifs with h1 h2 h3 <;> constructor <;> linarith

/-- C7: for every rectangle on a frame of positive width and height, each of
the four normalized values emitted on the label line is clamped into
`[0,1]` (so a box with `x2 = img_width` never emits a value above 1), and a
box spanning the full image width emits width exactly `"1.000000"`. -/
theorem normRect_emits_clamped (x1 y1 x2 y2 imgW imgH : Int)
    (hw : 0 < imgW) (hh : 0 < imgH)
    (v : ℚ × ℚ × ℚ × ℚ) (hv : v = normRect x1 y1 x2 y2 imgW imgH) :
    (0 ≤ v.1 ∧ v.1 ≤ 1) ∧ (0 ≤ v.2.1 ∧ v.2.1 ≤ 1) ∧
    (0 ≤ v.2.2.1 ∧ v.2.2.1 ≤ 1) ∧ (0 ≤ v.2.2.2 ∧ v.2.2.2 ≤ 1) ∧
    (x2 - x1 = imgW → format6 v.2.2.1 = "1.000000") := by
  subst hv
  refine ⟨clamp01_mem _, clamp01_mem _, clamp01_mem _, clamp01_mem _, ?_⟩
  intro hfull
  have hcast : ((x2 : ℚ) - (x1 : ℚ)) = (imgW : ℚ) := by
    exact_mod_cast hfull
  have hW0 : (imgW : ℚ) ≠ 0 := by
    exact_mod_cast hw.ne'
  have hproj : (normRect x1 y1 x2 y2 imgW imgH).2.2.1 =
      clamp01 (((x2 : ℚ) - (x1 : ℚ)) / (imgW : ℚ)) := rfl
  rw [hproj, hcast, div_self hW0]
  rw [(by norm_num [clamp01] : clamp01 (1 : ℚ) = 1)]
  unfold format6
  rw [(by norm_num : (1 : ℚ) * 1000000 = 1000000)]
  simp only [Rat.num_ofNat, Rat.den_ofNat]
  decide

/-- Closed instance of `normRect_emits_clamped`: a full-width box
`(0,10)-(200,60)` on a 200x100 frame. -/
theorem normRect_emits_clamped_witness :
    (0 ≤ (normRect 0 10 200 60 200 100).1 ∧
      (normRect 0 10 200 60 200 100).1 ≤ 1) ∧
    (0 ≤ (normRect 0 10 200 60 200 100).2.1 ∧
      (normRect 0 10 200 60 200 100).2.1 ≤ 1) ∧
    (0 ≤ (normRect 0 10 200 60 200 100).2.2.1 ∧
      (normRect 0 10 200 60 200 100).2.2.1 ≤ 1) ∧
    (0 ≤ (normRect 0 10 200 60 200 100).2.2.2 ∧
      (normRect 0 10 200 60 200 100).2.2.2 ≤ 1) ∧
    ((200 : Int) - 0 = 200 →
      format6 (normRect 0 10 200 60 200 100).2.2.1 = "1.000000") :=
  normRect_emits_clamped 0 10 200 60 200 100 (by norm_num) (by norm_num)
    _ rfl

/-- The split position `int(len(labeled_frame_indices) * 0.8)` of the export
(src/video_controller.py:428).  Python evaluates `n * 0.8` in binary floating
point and truncates; for every list length the program can hold the result
equals the exact `⌊n * 0.8⌋` used here (the float error of `0.8` only moves
`n * 0.8` across an integer boundary for `n` beyond `2^51`). -/
def splitIndex (n : Nat) : Nat :=
  (((n : ℚ) * (8 / 10)).floor).toNat

/-- The 80/20 positional split of the shuffled labeled-frame list
(src/video_controller.py:427-430): first `splitIndex` entries train, rest
validation. -/
def exportSplit (shuffled : List Nat) : List Nat × List Nat :=
  (shuffled.take (splitIndex shuffled.length),
   shuffled.drop (splitIndex shuffled.length))

/-- The function `Rat.floor` is the `⌊·⌋` of the `FloorRing ℚ` instance. -/
theorem rat_floor_eq_intFloor (q : ℚ) : q.floor = ⌊q⌋ := rfl

/-- The split point never exceeds the list length. -/
theorem splitIndex_le (n : Nat) : splitIndex n ≤ n := by
  unfold splitIndex
  rw [rat_floor_eq_intFloor]
  have hn : (0 : ℚ) ≤ (n : ℚ) := by positivity
  have h1 : ⌊(n : ℚ) * (8 / 10)⌋ ≤ ⌊(n : ℚ)⌋ :=
    Int.floor_le_floor (by nlinarith)
  rw [Int.floor_natCast] at h1
  exact Int.toNat_le.mpr h1

/-- C5: the export split applies an arbitrary permutation to the (nodup)
sorted labeled-frame list and assigns the first `⌊0.8 * N⌋` positions of the
permuted order to train and the remaining `N - ⌊0.8 * N⌋` to validation; for
`N = 10` this is always 8 train and 2 validation, whatever the permutation;
train and validation are disjoint and together hold exactly the labeled
set. -/
theorem exportSplit_partition (sorted shuffled : List Nat)
    (hnd : sorted.Nodup) (hperm : shuffled.Perm sorted)
    (tr va : List Nat)
    (htr : tr = (exportSplit shuffled).1) (hva : va = (exportSplit shuffled).2) :
    tr.length = splitIndex shuffled.length ∧
    va.length = shuffled.length - splitIndex shuffled.length ∧
    (shuffled.length = 10 → tr.length = 8 ∧ va.length = 2) ∧
    (∀ x, x ∈ tr → x ∉ va) ∧
    (∀ x, (x ∈ tr ∨ x ∈ va) ↔ x ∈ sorted) := by
  subst htr hva
  have hle := splitIndex_le shuffled.length
  have hlen1 : (exportSplit shuffled).1.length = splitIndex shuffled.length := by
    simp [exportSplit, List.length_take]
    omega
  have hlen2 : (exportSplit shuffled).2.length =
      shuffled.length - splitIndex shuffled.length := by
    simp [exportSplit, List.length_drop]
  have hsplit10 : splitIndex 10 = 8 := by
    unfold splitIndex
    rw [rat_floor_eq_intFloor]
    rw [(by norm_num : ((10 : Nat) : ℚ) * (8 / 10) = ((8 : Int) : ℚ))]
    rw [Int.floor_intCast]
    rfl
  have happ : (exportSplit shuffled).1 ++ (exportSplit shuffled).2 = shuffled :=
    List.take_append_drop _ _
  have hndsh : shuffled.Nodup := (hperm.nodup_iff).mpr hnd
  have hndapp : ((exportSplit shuffled).1 ++ (exportSplit shuffled).2).Nodup := by
    rw [happ]
    exact hndsh
  have hdisj := (List.nodup_append.mp hndapp).2.2
  refine ⟨hlen1, hlen2, ?_, ?_, ?_⟩
  · intro h10
    rw [hlen1, hlen2, h10, hsplit10]
    exact ⟨rfl, rfl⟩
  · intro x hx hx2
    exact hdisj hx hx2
  · intro x
    have hx : x ∈ (exportSplit shuffled).1 ++ (exportSplit shuffled).2 ↔
        x ∈ sorted := by
      rw [happ]
      exact hperm.mem_iff
    rw [← hx, List.mem_append]

/-- Closed instance of `exportSplit_partition`: ten labeled frames
`[0,…,9]` shuffled into reverse order split as 8 train / 2 validation. -/
theorem exportSplit_partition_witness :
    (exportSplit [9, 8, 7, 6, 5, 4, 3, 2, 1, 0]).1.length =
      splitIndex (List.length [9, 8, 7, 6, 5, 4, 3, 2, 1, 0]) ∧
    (exportSplit [9, 8, 7, 6, 5, 4, 3, 2, 1, 0]).2.length =
      List.length [9, 8, 7, 6, 5, 4, 3, 2, 1, 0] -
        splitIndex (List.length [9, 8, 7, 6, 5, 4, 3, 2, 1, 0]) ∧
    (List.length [9, 8, 7, 6, 5, 4, 3, 2, 1, 0] = 10 →
      (exportSplit [9, 8, 7, 6, 5, 4, 3, 2, 1, 0]).1.length = 8 ∧
      (exportSplit [9, 8, 7, 6, 5, 4, 3, 2, 1, 0]).2.length = 2) ∧
    (∀ x, x ∈ (exportSplit [9, 8, 7, 6, 5, 4, 3, 2, 1, 0]).1 →
      x ∉ (exportSplit [9, 8, 7, 6, 5, 4, 3, 2, 1, 0]).2) ∧
    (∀ x, (x ∈ (exportSplit [9, 8, 7, 6, 5, 4, 3, 2, 1, 0]).1 ∨
      x ∈ (exportSplit [9, 8, 7, 6, 5, 4, 3, 2, 1, 0]).2) ↔
      x ∈ [0, 1, 2, 3, 4, 5, 6, 7, 8, 9]) :=
  exportSplit_partition [0, 1, 2, 3, 4, 5, 6, 7, 8, 9]
    [9, 8, 7, 6, 5, 4, 3, 2, 1, 0] (by decide) (by decide) _ _ rfl rfl

/-! ## Stream Navigator (`src/video_model.py`) -/

/-- The navigator slice of `VideoModel` state that seeking touches, plus a
description of the opened stream's content.  `container`/`stream` model the
`av` handles (`none` = Python `None`); `pts j` is the presentation timestamp
of decoded frame number `j` (frames `0 ≤ j < frameCount` exist); `keyframes`
lists the frame numbers the demuxer can land on; `decodePos` is the demuxer
position — the number of the next frame the active decode generator yields
(PyAV generators pull packets from the container, so a `container.seek`
moves every generator). -/
structure VidState where
  container : Option Unit
  stream : Option Unit
  firstFramePts : Option Int
  frameDuration : Int
  frameCount : Nat
  currentFrameIndex : Int
  decodePos : Nat
  pts : Nat → Int
  keyframes : List Nat

/-- Model of `container.seek(target_pts, stream=..., backward=True)`: land on the
last keyframe whose pts is at or before the target (stream start when none
qualifies). -/
def seekBackwardPos (s : VidState) (target : Int) : Nat :=
  (s.keyframes.filter (fun k => decide (s.pts k ≤ target))).foldl max 0

/-- The forward scan of `seek` (src/video_model.py:301-310): decode from
position `j` until the first frame with `pts ≥ target`; `none` when the
stream (of `fc` frames) is exhausted first.  `fuel` bounds the loop; any
`fuel ≥ fc - j` is exact. -/
def findFrom (pts : Nat → Int) (fc : Nat) (target : Int) :
    Nat → Nat → Option Nat
  | 0, _ => none
  | fuel + 1, j =>
      if fc ≤ j then none
      else if target ≤ pts j then some j
      else findFrom pts fc target fuel (j + 1)

/-- The clamp `max(0, min(frame_index, self.frame_count - 1))`
(src/video_model.py:290), with Python's `min`/`max` spelled as
conditionals. -/
def clampIndex (fc : Nat) (fi : Int) : Int :=
  let m := if fi ≤ (fc : Int) - 1 then fi else (fc : Int) - 1
  if m ≤ 0 then 0 else m

/-- Model of `VideoModel.reset_to_start` (src/video_model.py:274-282): index back to
0, seek the container to `first_frame_pts`, rebuild the generator and load
one frame.  (On an empty stream the Python code would recurse through
`_load_frame`; the model leaves the position unchanged there — no claim
exercises that path.) -/
def resetToStart (s : VidState) : VidState :=
  match s.container, s.firstFramePts with
  | some _, some fp =>
      let pos := seekBackwardPos s fp
      if pos < s.frameCount then
        { s with currentFrameIndex := 0, decodePos := pos + 1 }
      else
        { s with currentFrameIndex := 0, decodePos := pos }
  | _, _ => s

/-- Model of `VideoModel.seek` (src/video_model.py:284-321): bail out when container
or `first_frame_pts` is absent; clamp the index; compute
`target_pts = first_frame_pts + frame_index * frame_duration`; backward-seek
to a keyframe; scan forward for the first frame with `pts ≥ target_pts`.
On success that frame becomes current and `current_frame_index` is set to
the clamped index; on an exhausted scan, reset to the start. -/
def seek (s : VidState) (fi : Int) : VidState :=
  match s.container, s.firstFramePts with
  | some _, some fp =>
      let fiC := clampIndex s.frameCount fi
      let target := fp + fiC * s.frameDuration
      let pos := seekBackwardPos s target
      match findFrom s.pts s.frameCount target s.frameCount pos with
      | some j => { s with currentFrameIndex := fiC, decodePos := j + 1 }
      | none => resetToStart s
  | _, _ => s

/-- The scan loop of `get_frame_by_index` (src/video_model.py:240-255) on the
temporary generator: consume a frame; when its `pts ≥ target`, record it if
it is the exact match or nothing was recorded yet, and break once a frame
past the target has been consumed with something recorded.  Returns the
recorded frame number and the demuxer position after the loop. -/
def scanExact (pts : Nat → Int) (fc : Nat) (target : Int) :
    Nat → Nat → Option Nat → Option Nat × Nat
  | 0, j, found => (found, j)
  | fuel + 1, j, found =>
      if fc ≤ j then (found, j)
      else
        let f := pts j
        if target ≤ f then
          let found2 := if f = target ∨ found = none then some j else found
          if target < f ∧ found2 ≠ none then (found2, j + 1)
          else scanExact pts fc target fuel (j + 1) found2
        else scanExact pts fc target fuel (j + 1) found

/-- Model of `VideoModel.get_frame_by_index` (src/video_model.py:221-272): `None`
when container, `first_frame_pts` or stream is absent, or the index is out
of `[0, frame_count)`; otherwise backward-seek the (shared) container to the
target and scan a temporary generator for the exact frame.  The `finally`
block seeks back to the original position only when `current_frame_index`
differs from the value saved on entry — and the method never writes
`current_frame_index`, so the guard is modelled exactly as written. -/
def getFrameByIndex (s : VidState) (fi : Int) : Option Nat × VidState :=
  match s.container, s.firstFramePts, s.stream with
  | some _, some fp, some _ =>
      if 0 ≤ fi ∧ fi < (s.frameCount : Int) then
        let target := fp + fi * s.frameDuration
        let origIndex := s.currentFrameIndex
        let pos := seekBackwardPos s target
        let r := scanExact s.pts s.frameCount target s.frameCount pos none
        let s1 := { s with decodePos := r.2 }
        let s2 := if s1.currentFrameIndex ≠ origIndex
                  then seek s1 origIndex else s1
        (r.1, s2)
      else (none, s)
  | _, _, _ => (none, s)

/-- C10: unlike `seek`, `get_frame_by_index` rejects out-of-range input and
absent-video state: whenever `frame_index < 0` or
`frame_index ≥ frame_count`, or container, `first_frame_pts` or stream is
absent, it returns no frame, raises nothing (the model is total, as the
source catches every exception), and leaves the state — in particular
`current_frame_index` — untouched. -/
theorem getFrameByIndex_rejects (s : VidState) (fi : Int)
    (h : fi < 0 ∨ (s.frameCount : Int) ≤ fi ∨ s.container = none ∨
      s.firstFramePts = none ∨ s.stream = none) :
    (getFrameByIndex s fi).1 = none ∧ (getFrameByIndex s fi).2 = s ∧
    (getFrameByIndex s fi).2.currentFrameIndex = s.currentFrameIndex := by
  unfold getFrameByIndex
  cases hc : s.container with
  | none => exact ⟨rfl, rfl, rfl⟩
  | some u =>
      cases hfp : s.firstFramePts with
      | none => exact ⟨rfl, rfl, rfl⟩
      | some fp =>
          cases hst : s.stream with
          | none => exact ⟨rfl, rfl, rfl⟩
          | some u2 =>
              have hb : ¬ (0 ≤ fi ∧ fi < (s.frameCount : Int)) := by
                rcases h with h | h | h | h | h
                · omega
                · omega
                · rw [hc] at h
                  cases h
                · rw [hfp] at h
                  cases h
                · rw [hst] at h
                  cases h
              dsimp only
              rw [if_neg hb]
              exact ⟨rfl, rfl, rfl⟩

/-- An ideally loaded five-frame stream (pts of frame `j` is `j`, duration 1,
keyframe at 0) whose playback sits at frame 3, demuxer about to decode
frame 4. -/
def sampleNav : VidState :=
  { container := some (), stream := some (), firstFramePts := some 0,
    frameDuration := 1, frameCount := 5, currentFrameIndex := 3,
    decodePos := 4, pts := fun j => (j : Int), keyframes := [0] }

/-- Closed instance of `getFrameByIndex_rejects` at index 7 of a five-frame
stream. -/
theorem getFrameByIndex_rejects_witness :
    (getFrameByIndex sampleNav 7).1 = none ∧
    (getFrameByIndex sampleNav 7).2 = sampleNav ∧
    (getFrameByIndex sampleNav 7).2.currentFrameIndex =
      sampleNav.currentFrameIndex :=
  getFrameByIndex_rejects sampleNav 7 (by decide)

/-- C2 exhibit: `get_frame_by_index` does not restore the demuxer position.
From `sampleNav` (current frame 3, demuxer at 4), `get_frame_by_index(0)`
returns frame 0 and leaves `current_frame_index = 3`, but the demuxer is
left at position 2 — the `finally` restore is guarded by
`current_frame_index != original_frame_index`, which the method never makes
true, even though its own comment says it must seek back.  Subsequent
playback therefore decodes frame 2 next instead of frame 4. -/
theorem getFrameByIndex_position_not_restored :
    (getFrameByIndex sampleNav 0).1 = some 0 ∧
    (getFrameByIndex sampleNav 0).2.currentFrameIndex = 3 ∧
    sampleNav.decodePos = 4 ∧
    (getFrameByIndex sampleNav 0).2.decodePos = 2 := by decide

/-- The clamped index is never negative. -/
theorem clampIndex_nonneg (fc : Nat) (fi : Int) : 0 ≤ clampIndex fc fi := by
  unfold clampIndex
  dsimp only
  split_ifs <;> omega

/-- On a nonempty stream the clamped index stays below `frame_count`. -/
theorem clampIndex_lt (fc : Nat) (fi : Int) (hfc : 0 < fc) :
    clampIndex fc fi < (fc : Int) := by
  unfold clampIndex
  dsimp only
  split_ifs <;> omega

/-- An in-range index is left unchanged by the clamp. -/
theorem clampIndex_eq_self (fc : Nat) (fi : Int) (h0 : 0 ≤ fi)
    (hlt : fi < (fc : Int)) : clampIndex fc fi = fi := by
  unfold clampIndex
  dsimp only
  split_ifs <;> omega

/-- A fold of `max` stays below any bound on the start and the elements. -/
theorem foldl_max_le (l : List Nat) : ∀ (a B : Nat), a ≤ B →
    (∀ x ∈ l, x ≤ B) → l.foldl max a ≤ B := by
  induction l with
  | nil =>
      intro a B ha _
      simpa using ha
  | cons x xs ih =>
      intro a B ha hx
      simp only [List.foldl_cons]
      exact ih (max a x) B (max_le ha (hx x (List.mem_cons_self x xs)))
        (fun y hy => hx y (List.mem_cons_of_mem x hy))

/-- The backward seek lands at or before any bound that dominates every
keyframe at or before the target. -/
theorem seekBackwardPos_le (s : VidState) (target : Int) (B : Nat)
    (hall : ∀ k ∈ s.keyframes, s.pts k ≤ target → k ≤ B) :
    seekBackwardPos s target ≤ B := by
  unfold seekBackwardPos
  apply foldl_max_le
  · exact Nat.zero_le B
  · intro x hx
    have hx2 := List.mem_filter.mp hx
    exact hall x hx2.1 (by simpa using hx2.2)

/-- When frame `i` is the first frame at or past the target, the forward
scan starting at or before `i` finds exactly `i` (given enough fuel). -/
theorem findFrom_finds (pts : Nat → Int) (fc : Nat) (target : Int) (i : Nat)
    (hi : i < fc) (hchar : ∀ k, target ≤ pts k ↔ i ≤ k) :
    ∀ fuel j, j ≤ i → fc - j ≤ fuel → findFrom pts fc target fuel j = some i
    := by
  intro fuel
  induction fuel with
  | zero =>
      intro j hj hf
      omega
  | succ n ih =>
      intro j hj hf
      unfold findFrom
      rw [if_neg (by omega : ¬ fc ≤ j)]
      by_cases hT : target ≤ pts j
      · rw [if_pos hT]
        have hij : i ≤ j := (hchar j).mp hT
        have hji : j = i := by omega
        rw [hji]
      · rw [if_neg hT]
        have hni : ¬ i ≤ j := fun hle => hT ((hchar j).mpr hle)
        exact ih (j + 1) (by omega) (by omega)

/-- C1: on a loaded stream whose frames carry strictly increasing pts spaced
exactly `frame_duration` apart from `first_frame_pts`, `seek` first clamps
any integer input to `[0, frame_count-1]`, computes
`target_pts = first_frame_pts + frame_index * frame_duration` from the
clamped index, and ends with `current_frame_index` equal to the clamped
index — in particular equal to `frame_index` itself for every in-range
`frame_index`. -/
theorem seek_lands_on_clamped_index (s : VidState) (fp : Int) (fi : Int)
    (hc : s.container = some ()) (hfp : s.firstFramePts = some fp)
    (hd : 1 ≤ s.frameDuration)
    (hpts : ∀ j, s.pts j = fp + (j : Int) * s.frameDuration)
    (hfc : 0 < s.frameCount) :
    (seek s fi).currentFrameIndex = clampIndex s.frameCount fi ∧
    (0 ≤ fi → fi < (s.frameCount : Int) →
      (seek s fi).currentFrameIndex = fi) := by
  have h0 : 0 ≤ clampIndex s.frameCount fi := clampIndex_nonneg _ _
  have h1 : clampIndex s.frameCount fi < (s.frameCount : Int) :=
    clampIndex_lt _ _ hfc
  have hifc : (clampIndex s.frameCount fi).toNat < s.frameCount := by omega
  have hchar : ∀ k : Nat,
      (fp + clampIndex s.frameCount fi * s.frameDuration ≤ s.pts k ↔
        (clampIndex s.frameCount fi).toNat ≤ k) := by
    intro k
    rw [hpts k]
    constructor
    · intro hle
      have hmul : clampIndex s.frameCount fi * s.frameDuration ≤
          (k : Int) * s.frameDuration := by linarith
      have hCk : clampIndex s.frameCount fi ≤ (k : Int) :=
        le_of_mul_le_mul_right hmul (by omega)
      omega
    · intro hk2
      have hCk : clampIndex s.frameCount fi ≤ (k : Int) := by omega
      have hmul := mul_le_mul_of_nonneg_right hCk
        (by omega : (0 : Int) ≤ s.frameDuration)
      linarith
  have hpos : seekBackwardPos s
      (fp + clampIndex s.frameCount fi * s.frameDuration) ≤
      (clampIndex s.frameCount fi).toNat := by
    apply seekBackwardPos_le
    intro k hkmem hkle
    rw [hpts k] at hkle
    have hmul : (k : Int) * s.frameDuration ≤
        clampIndex s.frameCount fi * s.frameDuration := by linarith
    have hkC : (k : Int) ≤ clampIndex s.frameCount fi :=
      le_of_mul_le_mul_right hmul (by omega)
    omega
  have hfind := findFrom_finds s.pts s.frameCount
    (fp + clampIndex s.frameCount fi * s.frameDuration)
    (clampIndex s.frameCount fi).toNat hifc hchar s.frameCount
    (seekBackwardPos s (fp + clampIndex s.frameCount fi * s.frameDuration))
    hpos (by omega)
  have hseek : seek s fi =
      { s with currentFrameIndex := clampIndex s.frameCount fi,
               decodePos := (clampIndex s.frameCount fi).toNat + 1 } := by
    unfold seek
    rw [hc, hfp]
    dsimp only
    rw [hfind]
  constructor
  · rw [hseek]
  · intro ha hb
    rw [hseek]
    show clampIndex s.frameCount fi = fi
    exact clampIndex_eq_self _ _ ha hb

/-- Closed instance of `seek_lands_on_clamped_index` at frame 3 of the
five-frame sample stream. -/
theorem seek_lands_on_clamped_index_witness :
    (seek sampleNav 3).currentFrameIndex = clampIndex sampleNav.frameCount 3 ∧
    ((0 : Int) ≤ 3 → (3 : Int) < (sampleNav.frameCount : Int) →
      (seek sampleNav 3).currentFrameIndex = 3) :=
  seek_lands_on_clamped_index sampleNav 0 3 rfl rfl (by decide)
    (by intro j; simp [sampleNav]) (by decide)
